import Mathlib

/-!
Shallow embedding of the demo_monitoring service (FastAPI + SQLModel).

The data model follows `models.py`: Site, Metric, DeviceType, Device and
Measure rows, plus the DeviceTypeMetricLink association table.  Primary keys
are modelled as `Nat` ids; autoincrement is modelled by taking one more than
the maximum existing id.  Python `float` measurement values are modelled as
`Rat`; UTC datetimes are modelled as `Nat` instants (only their order
matters to the endpoints).

The collector `measure_devices`, the `GET /device/{id}` snapshot, the
`GET /history/{device_id}/{metric_id}` view, device creation and the
add/remove-metric endpoints follow `main.py`.  SQL `ORDER BY` clauses are
modelled with the stable `List.mergeSort`; a raised exception or
`HTTPException` is an `Except.error`, and since the session commits only at
the end of a handler, an error leaves the database unchanged
(`runCollector`, `applyDB`).
-/

/-- Row of the `site` table: id and unique name (`models.py`). -/
structure Site where
  id : Nat
  name : String
deriving Repr, DecidableEq

/-- Row of the `metric` table: id, unique name, unit and the `call`
identifier naming the sampling function (`models.py`). -/
structure Metric where
  id : Nat
  name : String
  unit : String
  call : String
deriving Repr, DecidableEq

/-- Row of the `devicetype` table (`models.py`); its metrics live in the
association table. -/
structure DeviceType where
  id : Nat
  name : String
deriving Repr, DecidableEq

/-- Row of the `device` table (`models.py`): belongs to one site and one
device type, with an `is_active` flag. -/
structure Device where
  id : Nat
  name : String
  site_id : Nat
  device_type_id : Nat
  is_active : Bool
deriving Repr, DecidableEq

/-- Row of the `measure` table (`models.py`): one timestamped sample of a
metric for a device.  The autoincrement id column is not modelled; the
position in `DB.measures` plays its role (insertion order). -/
structure Measure where
  device_id : Nat
  metric_id : Nat
  value : Rat
  timestamp : Nat
deriving Repr, DecidableEq

/-- The relational store: one list per table, in insertion order.
`links` is the `DeviceTypeMetricLink` association table, a list of
(device_type_id, metric_id) pairs. -/
structure DB where
  sites : List Site
  device_types : List DeviceType
  metrics : List Metric
  devices : List Device
  links : List (Nat × Nat)
  measures : List Measure
deriving Repr, DecidableEq

/-- Model of `session.get(Site, i)`: primary-key lookup. -/
def DB.getSite (db : DB) (i : Nat) : Option Site :=
  db.sites.find? (fun s => s.id == i)

/-- Model of `session.get(DeviceType, i)`. -/
def DB.getDeviceType (db : DB) (i : Nat) : Option DeviceType :=
  db.device_types.find? (fun dt => dt.id == i)

/-- Model of `session.get(Metric, i)`. -/
def DB.getMetric (db : DB) (i : Nat) : Option Metric :=
  db.metrics.find? (fun m => m.id == i)

/-- Model of `session.get(Device, i)`. -/
def DB.getDevice (db : DB) (i : Nat) : Option Device :=
  db.devices.find? (fun d => d.id == i)

/-- Model of the `DeviceType.metrics` relationship (`models.py`): the
metrics joined through the association table, in link insertion order. -/
def DB.typeMetrics (db : DB) (dt : DeviceType) : List Metric :=
  (db.links.filter (fun l => l.1 == dt.id)).filterMap (fun l => db.getMetric l.2)

/-- Model of Python `randrange(lo, hi)`: some integer in [lo, hi), chosen
here by the entropy argument `s`. -/
def randrange (lo hi s : Nat) : Nat :=
  lo + s % (hi - lo)

/-- The `mock` sampling function (`measure.py`): ignores its metric and
device arguments and returns `randrange(1, 100)` as the measured value. -/
def mock (_metric : Metric) (_device : Device) (s : Nat) : Rat :=
  (randrange 1 100 s : Nat)

/-- Type of sampling functions: metric and device arguments plus an entropy
argument standing for the sampler's randomness. -/
abbrev SampleFun := Metric → Device → Nat → Rat

/-- Model of the `globals().get(metric.call)` lookup in `measure_devices`
(`main.py`): the registry of callable sampling functions defined for the
module, which contains exactly `mock` (`from measure import mock`). -/
def globalsRegistry : String → Option SampleFun :=
  fun c => if c == "mock" then some mock else none

/-- One iteration of the inner loop of `measure_devices` (`main.py`):
resolve `metric.call`; if it does not resolve, raise
`ValueError(f"Function ... not found or not callable")` (the message names
the identifier); otherwise call the function and build a `Measure` stamped
with the current UTC time `t`. -/
def sampleOne (reg : String → Option SampleFun) (d : Device) (m : Metric)
    (t : Nat) (r : Nat) : Except String Measure :=
  match reg m.call with
  | none => .error ("Function " ++ m.call ++ " not found or not callable")
  | some f => .ok { device_id := d.id, metric_id := m.id, value := f m d r, timestamp := t }

/-- The inner `for metric in device.device_type.metrics` loop of
`measure_devices`: sample each metric in order, stamping the k-th sample of
the run with time `now k` and entropy `rng k`.  The first failure aborts
the whole run. -/
def sampleMetricList (reg : String → Option SampleFun) (now rng : Nat → Nat)
    (d : Device) : List Metric → Nat → Except String (List Measure)
  | [], _ => .ok []
  | m :: rest, k =>
    match sampleOne reg d m (now k) (rng k) with
    | .error e => .error e
    | .ok meas =>
      match sampleMetricList reg now rng d rest (k + 1) with
      | .error e => .error e
      | .ok more => .ok (meas :: more)

/-- The outer `for device in devices` loop of `measure_devices`: the body
runs only under `if device.is_active and device.device_type.metrics:`
(a device whose type has no metrics is skipped); a device whose
`device_type` row is missing would make the attribute access fail, modelled
as an error. -/
def collectDevices (db : DB) (reg : String → Option SampleFun)
    (now rng : Nat → Nat) : List Device → Nat → Except String (List Measure)
  | [], _ => .ok []
  | d :: rest, k =>
    if d.is_active then
      match db.getDeviceType d.device_type_id with
      | none => .error ("Device type missing for device " ++ toString d.id)
      | some dt =>
        let ms := db.typeMetrics dt
        if ms.isEmpty then
          collectDevices db reg now rng rest k
        else
          match sampleMetricList reg now rng d ms k with
          | .error e => .error e
          | .ok xs =>
            match collectDevices db reg now rng rest (k + ms.length) with
            | .error e => .error e
            | .ok ys => .ok (xs ++ ys)
    else
      collectDevices db reg now rng rest k

/-- The collector job `measure_devices` (`main.py`): select the devices
with `is_active`, sample every metric of each, and commit all queued
measures at the end as one transaction.  An error means the exception
propagated before `session.commit()`. -/
def measure_devices (db : DB) (reg : String → Option SampleFun)
    (now rng : Nat → Nat) : Except String DB :=
  match collectDevices db reg now rng (db.devices.filter (fun d => d.is_active)) 0 with
  | .error e => .error e
  | .ok new => .ok { db with measures := db.measures ++ new }

/-- The state of the store after one scheduled collector run: on success
the committed state, on an exception the session is discarded without
commit, so the store is unchanged. -/
def runCollector (db : DB) (reg : String → Option SampleFun)
    (now rng : Nat → Nat) : DB :=
  match measure_devices db reg now rng with
  | .ok db2 => db2
  | .error _ => db

/-- An `HTTPException`: status code and detail message. -/
structure HError where
  status : Nat
  detail : String
deriving Repr, DecidableEq

/-- The state of the store after a handler that returns a new state on
success: raising `HTTPException` happens before any mutation is committed,
so the store is unchanged on error. -/
def applyDB (db : DB) (r : Except HError DB) : DB :=
  match r with
  | .ok db2 => db2
  | .error _ => db

/-- Comparator of the `ORDER BY Measure.metric_id, Measure.timestamp.desc()`
clause of the `GET /device/{id}` handler. -/
def snapshotLE (a b : Measure) : Bool :=
  decide (a.metric_id < b.metric_id) ||
    (a.metric_id == b.metric_id && decide (b.timestamp ≤ a.timestamp))

/-- The grouping loop of the `GET /device/{id}` handler: walk the ordered
measures and keep the first one seen for each `metric_id` (the Python dict
keeps first insertion, and `.values()` preserves that order). -/
def firstPerMetric : List Measure → List Nat → List Measure
  | [], _ => []
  | m :: rest, seen =>
    if m.metric_id ∈ seen then firstPerMetric rest seen
    else m :: firstPerMetric rest (m.metric_id :: seen)

/-- The `GET /device/{id}` handler (`main.py`), reduced to its
`last_measures` payload: 404 (`none`) when the device does not exist,
otherwise the device's measures ordered by metric id then timestamp
descending, grouped to the latest per metric. -/
def device (db : DB) (i : Nat) : Option (List Measure) :=
  match db.getDevice i with
  | none => none
  | some _ =>
    some (firstPerMetric
      ((db.measures.filter (fun m => m.device_id == i)).mergeSort snapshotLE) [])

/-- Comparator of the `ORDER BY Measure.timestamp.desc()` clause of the
`GET /history/{device_id}/{metric_id}` handler. -/
def tsDescLE (a b : Measure) : Bool :=
  decide (b.timestamp ≤ a.timestamp)

/-- The `GET /history/{device_id}/{metric_id}` handler `measure_history`
(`main.py`), reduced to its `history` payload: 404 (`none`) when the device
or the metric does not exist, otherwise all measures of the pair ordered by
timestamp descending. -/
def measure_history (db : DB) (device_id metric_id : Nat) : Option (List Measure) :=
  match db.getDevice device_id, db.getMetric metric_id with
  | some _, some _ =>
    some ((db.measures.filter
      (fun m => m.device_id == device_id && m.metric_id == metric_id)).mergeSort tsDescLE)
  | _, _ => none

/-- The request body of `POST /device/...`: the caller submits name and
active flag; ids and foreign keys are assigned by the handler. -/
structure DeviceData where
  name : String
  is_active : Bool
deriving Repr, DecidableEq

/-- Model of the autoincrement primary key for a new device row. -/
def DB.nextDeviceId (db : DB) : Nat :=
  db.devices.foldr (fun d a => max d.id a) 0 + 1

/-- The `POST /device/device_type/{device_type_id}/site/{site_id}` handler
`device_new` (`main.py`): 404 when the device type or site is missing;
otherwise bind the new device to them, default an empty name to the device
type's name, and insert. -/
def device_new (db : DB) (dev : DeviceData) (device_type_id site_id : Nat) :
    Except HError (Device × DB) :=
  match db.getDeviceType device_type_id with
  | none => .error { status := 404, detail := "Device Type not found" }
  | some dt =>
    match db.getSite site_id with
    | none => .error { status := 404, detail := "Site not found" }
    | some s =>
      let d : Device :=
        { id := db.nextDeviceId
          name := if dev.name = "" then dt.name else dev.name
          site_id := s.id
          device_type_id := dt.id
          is_active := dev.is_active }
      .ok (d, { db with devices := db.devices ++ [d] })

/-- The `POST /device_type/{id}/add_metric/{metric_id}` handler
(`main.py`): 404 when the device type or metric is missing, 400 when the
metric is already in `device_type.metrics` (the association row exists),
otherwise append the association. -/
def device_type_add_metric (db : DB) (i metric_id : Nat) : Except HError DB :=
  match db.getDeviceType i with
  | none => .error { status := 404, detail := "Device Type not found" }
  | some dt =>
    match db.getMetric metric_id with
    | none => .error { status := 404, detail := "Metric not found" }
    | some m =>
      if (dt.id, m.id) ∈ db.links then
        .error { status := 400, detail := "Metric already exists in Device Type" }
      else
        .ok { db with links := db.links ++ [(dt.id, m.id)] }

/-- The `POST /device_type/{id}/remove_metric/{metric_id}` handler
(`main.py`): 404 when the device type or metric is missing, 400 when the
metric is not in `device_type.metrics`, otherwise remove the association
(Python `list.remove` deletes the first occurrence). -/
def device_type_remove_metric (db : DB) (i metric_id : Nat) : Except HError DB :=
  match db.getDeviceType i with
  | none => .error { status := 404, detail := "Device Type not found" }
  | some dt =>
    match db.getMetric metric_id with
    | none => .error { status := 404, detail := "Metric not found" }
    | some m =>
      if (dt.id, m.id) ∈ db.links then
        .ok { db with links := db.links.erase (dt.id, m.id) }
      else
        .error { status := 400, detail := "Metric not found in Device Type" }

/-- Specification predicate for the latest-per-metric snapshot: `snap` has
one entry per metric with at least one measurement for device `i`, each
entry being one of the device's measurements with maximal timestamp for its
metric. -/
def SnapshotSpec (db : DB) (i : Nat) (snap : List Measure) : Prop :=
  (snap.map (fun x => x.metric_id)).Nodup ∧
  (∀ mid : Nat, (∃ x ∈ snap, x.metric_id = mid) ↔
    ∃ mm ∈ db.measures, mm.device_id = i ∧ mm.metric_id = mid) ∧
  ∀ x ∈ snap, x ∈ db.measures ∧ x.device_id = i ∧
    ∀ mm ∈ db.measures, mm.device_id = i → mm.metric_id = x.metric_id →
      mm.timestamp ≤ x.timestamp

/-- Demo catalog used by the witnesses: one site, one device type with the
`mock` metric attached, one active device, empty measurement log. -/
def dbA : DB :=
  { sites := [{ id := 1, name := "HQ" }]
    device_types := [{ id := 1, name := "Sensor" }]
    metrics := [{ id := 1, name := "temp", unit := "C", call := "mock" }]
    devices := [{ id := 1, name := "S1", site_id := 1, device_type_id := 1, is_active := true }]
    links := [(1, 1)]
    measures := [] }

/-- Variant of `dbA` whose metric's `call` identifier does not resolve. -/
def dbBad : DB :=
  { dbA with metrics := [{ id := 1, name := "temp", unit := "C", call := "nope" }] }

/-- Variant of `dbA` with one already-recorded measurement. -/
def dbOld : DB :=
  { dbA with measures := [{ device_id := 1, metric_id := 1, value := (5 : Rat), timestamp := 50 }] }

/-- Catalog with a measurement log for the snapshot and history witnesses:
metric 1 has two samples for device 1, metric 2 has one. -/
def dbSnap : DB :=
  { dbA with
      metrics := [{ id := 1, name := "temp", unit := "C", call := "mock" },
                  { id := 2, name := "load", unit := "pct", call := "mock" }]
      links := [(1, 1), (1, 2)]
      measures := [{ device_id := 1, metric_id := 1, value := (1 : Rat), timestamp := 10 },
                   { device_id := 1, metric_id := 2, value := (7 : Rat), timestamp := 5 },
                   { device_id := 1, metric_id := 1, value := (2 : Rat), timestamp := 20 }] }

/-- The deterministic clock used by the witnesses. -/
def wClock : Nat → Nat := fun k => 100 + k

/-- The deterministic entropy stream used by the witnesses. -/
def wRng : Nat → Nat := fun k => 7 + k

/-- Variant of `dbA` without the type-metric association. -/
def dbNoLink : DB :=
  { dbA with links := [] }

/-- The state of `dbOld` after one collector run under `wClock`/`wRng`. -/
def dbOldRun : DB :=
  { dbA with measures :=
      [{ device_id := 1, metric_id := 1, value := (5 : Rat), timestamp := 50 },
       { device_id := 1, metric_id := 1, value := (8 : Rat), timestamp := 100 }] }

theorem getSite_id {db : DB} {i : Nat} {s : Site} (h : db.getSite i = some s) :
    s.id = i := by
  simpa using List.find?_some h

theorem getDeviceType_id {db : DB} {i : Nat} {dt : DeviceType}
    (h : db.getDeviceType i = some dt) : dt.id = i := by
  simpa using List.find?_some h

theorem getMetric_id {db : DB} {i : Nat} {m : Metric}
    (h : db.getMetric i = some m) : m.id = i := by
  simpa using List.find?_some h

theorem getDevice_id {db : DB} {i : Nat} {d : Device}
    (h : db.getDevice i = some d) : d.id = i := by
  simpa using List.find?_some h

theorem runCollector_of_error {db : DB} {reg : String → Option SampleFun}
    {now rng : Nat → Nat} {e : String}
    (h : measure_devices db reg now rng = .error e) :
    runCollector db reg now rng = db := by
  simp [runCollector, h]

/-- C8: every collector run leaves the catalog tables (sites, device types,
metrics, devices, associations) unchanged; its only state effect is
appending new Measurement rows. -/
theorem collector_frame (db : DB) (reg : String → Option SampleFun)
    (now rng : Nat → Nat) :
    (runCollector db reg now rng).sites = db.sites ∧
    (runCollector db reg now rng).device_types = db.device_types ∧
    (runCollector db reg now rng).metrics = db.metrics ∧
    (runCollector db reg now rng).devices = db.devices ∧
    (runCollector db reg now rng).links = db.links ∧
    ∃ new, (runCollector db reg now rng).measures = db.measures ++ new := by
  unfold runCollector measure_devices
  cases h : collectDevices db reg now rng (db.devices.filter (fun d => d.is_active)) 0 with
  | error e => exact ⟨rfl, rfl, rfl, rfl, rfl, [], by simp⟩
  | ok new => exact ⟨rfl, rfl, rfl, rfl, rfl, new, rfl⟩

/-- C4: a collector run commits its queued measurements as one transaction;
if sampling fails the exception propagates before `session.commit()`, so
the store (measurement log and catalog alike) is exactly what it was before
the run. -/
theorem collector_failed_run_atomic (db : DB) (reg : String → Option SampleFun)
    (now rng : Nat → Nat) (e : String)
    (herr : measure_devices db reg now rng = .error e) :
    runCollector db reg now rng = db ∧
    (runCollector db reg now rng).measures = db.measures := by
  have h := runCollector_of_error herr
  exact ⟨h, by rw [h]⟩

theorem collector_failed_run_atomic_witness :
    measure_devices dbBad globalsRegistry wClock wRng =
      .error "Function nope not found or not callable" ∧
    runCollector dbBad globalsRegistry wClock wRng = dbBad := by
  refine ⟨by rfl, ?_⟩
  exact (collector_failed_run_atomic dbBad globalsRegistry wClock wRng
    "Function nope not found or not callable" (by rfl)).1

/-- C10: the `mock` sampler always yields an integer value between 1 and 99
inclusive, and ignores its metric and device arguments. -/
theorem mock_integer_bounded_const (m : Metric) (d : Device) (s : Nat) :
    (∃ n : Nat, mock m d s = (n : Rat) ∧ 1 ≤ n ∧ n ≤ 99) ∧
    ∀ (m2 : Metric) (d2 : Device), mock m2 d2 s = mock m d s := by
  constructor
  · refine ⟨randrange 1 100 s, rfl, ?_, ?_⟩ <;> (unfold randrange; omega)
  · intro m2 d2
    rfl

/-- C9: device creation with existing device type and site ids succeeds,
binds the new device to exactly that site and device type, appends it to
the device table, and defaults an empty submitted name to the device type's
name (keeping a non-empty submitted name). -/
theorem device_new_creates (db : DB) (dev : DeviceData) (tid sid : Nat)
    (dt : DeviceType) (s : Site)
    (hdt : db.getDeviceType tid = some dt) (hs : db.getSite sid = some s) :
    ∃ d db2, device_new db dev tid sid = .ok (d, db2) ∧
      d.device_type_id = dt.id ∧ d.site_id = s.id ∧
      d.device_type_id = tid ∧ d.site_id = sid ∧
      db2.devices = db.devices ++ [d] ∧
      (dev.name = "" → d.name = dt.name) ∧
      (dev.name ≠ "" → d.name = dev.name) ∧
      d.is_active = dev.is_active := by
  have hdtid : dt.id = tid := getDeviceType_id hdt
  have hsid : s.id = sid := getSite_id hs
  unfold device_new
  rw [hdt, hs]
  refine ⟨_, _, rfl, rfl, rfl, hdtid, hsid, rfl, ?_, ?_, rfl⟩
  · intro h
    simp [h]
  · intro h
    simp [h]

theorem device_new_creates_witness :
    dbA.getDeviceType 1 = some { id := 1, name := "Sensor" } ∧
    dbA.getSite 1 = some { id := 1, name := "HQ" } ∧
    ∃ d db2, device_new dbA { name := "", is_active := true } 1 1 = .ok (d, db2) ∧
      d.device_type_id = ({ id := 1, name := "Sensor" } : DeviceType).id ∧
      d.site_id = ({ id := 1, name := "HQ" } : Site).id ∧
      d.device_type_id = 1 ∧ d.site_id = 1 ∧
      db2.devices = dbA.devices ++ [d] ∧
      (({ name := "", is_active := true } : DeviceData).name = "" → d.name = "Sensor") ∧
      (({ name := "", is_active := true } : DeviceData).name ≠ "" →
        d.name = ({ name := "", is_active := true } : DeviceData).name) ∧
      d.is_active = ({ name := "", is_active := true } : DeviceData).is_active := by
  exact ⟨by rfl, by rfl,
    device_new_creates dbA { name := "", is_active := true } 1 1
      { id := 1, name := "Sensor" } { id := 1, name := "HQ" } (by rfl) (by rfl)⟩

/-- C6: from a state where the association is absent, adding a metric to a
device type twice leaves exactly one association row and the second call
fails with HTTP 400; removing a metric that is not associated fails with
HTTP 400; both failures leave the store unchanged. -/
theorem add_metric_conflict_remove_absent (db : DB) (i mid : Nat)
    (dt : DeviceType) (m : Metric)
    (hdt : db.getDeviceType i = some dt) (hm : db.getMetric mid = some m)
    (habs : (dt.id, m.id) ∉ db.links) :
    ∃ db1, device_type_add_metric db i mid = .ok db1 ∧
      db1.links.count (dt.id, m.id) = 1 ∧
      device_type_add_metric db1 i mid =
        .error { status := 400, detail := "Metric already exists in Device Type" } ∧
      applyDB db1 (device_type_add_metric db1 i mid) = db1 ∧
      device_type_remove_metric db i mid =
        .error { status := 400, detail := "Metric not found in Device Type" } ∧
      applyDB db (device_type_remove_metric db i mid) = db := by
  have hadd : device_type_add_metric db i mid =
      .ok { db with links := db.links ++ [(dt.id, m.id)] } := by
    simp [device_type_add_metric, hdt, hm, habs]
  have hdt1 : ({ db with links := db.links ++ [(dt.id, m.id)] } : DB).getDeviceType i
      = some dt := hdt
  have hm1 : ({ db with links := db.links ++ [(dt.id, m.id)] } : DB).getMetric mid
      = some m := hm
  have hmem : (dt.id, m.id) ∈ ({ db with links := db.links ++ [(dt.id, m.id)] } : DB).links := by
    simp
  have hadd2 : device_type_add_metric { db with links := db.links ++ [(dt.id, m.id)] } i mid =
      .error { status := 400, detail := "Metric already exists in Device Type" } := by
    simp [device_type_add_metric, hdt1, hm1, hmem]
  have hrem : device_type_remove_metric db i mid =
      .error { status := 400, detail := "Metric not found in Device Type" } := by
    simp [device_type_remove_metric, hdt, hm, habs]
  refine ⟨_, hadd, ?_, hadd2, by rw [hadd2]; rfl, hrem, by rw [hrem]; rfl⟩
  rw [List.count_append]
  rw [List.count_eq_zero.2 habs]
  simp

theorem add_metric_conflict_remove_absent_witness :
    dbNoLink.getDeviceType 1 = some { id := 1, name := "Sensor" } ∧
    dbNoLink.getMetric 1 = some { id := 1, name := "temp", unit := "C", call := "mock" } ∧
    (1, 1) ∉ dbNoLink.links ∧
    ∃ db1, device_type_add_metric dbNoLink 1 1 = .ok db1 ∧
      db1.links.count (1, 1) = 1 ∧
      device_type_add_metric db1 1 1 =
        .error { status := 400, detail := "Metric already exists in Device Type" } ∧
      applyDB db1 (device_type_add_metric db1 1 1) = db1 ∧
      device_type_remove_metric dbNoLink 1 1 =
        .error { status := 400, detail := "Metric not found in Device Type" } ∧
      applyDB dbNoLink (device_type_remove_metric dbNoLink 1 1) = dbNoLink := by
  refine ⟨by rfl, by rfl, by decide, ?_⟩
  exact add_metric_conflict_remove_absent dbNoLink 1 1
    { id := 1, name := "Sensor" } { id := 1, name := "temp", unit := "C", call := "mock" }
    (by rfl) (by rfl) (by decide)

theorem sampleMetricList_mem {reg : String → Option SampleFun} {now rng : Nat → Nat}
    {d : Device} :
    ∀ (ms : List Metric) (k : Nat) (xs : List Measure),
      sampleMetricList reg now rng d ms k = .ok xs →
      ∀ x ∈ xs, x.device_id = d.id ∧ (∃ m ∈ ms, x.metric_id = m.id) ∧
        ∃ j, x.timestamp = now j := by
  intro ms
  induction ms with
  | nil =>
    intro k xs h x hx
    simp only [sampleMetricList] at h
    cases h
    simp at hx
  | cons m rest ih =>
    intro k xs h x hx
    simp only [sampleMetricList] at h
    cases hs : sampleOne reg d m (now k) (rng k) with
    | error e => rw [hs] at h; cases h
    | ok meas =>
      rw [hs] at h
      cases hr : sampleMetricList reg now rng d rest (k + 1) with
      | error e => rw [hr] at h; cases h
      | ok more =>
        rw [hr] at h
        cases h
        rcases List.mem_cons.1 hx with hx1 | hx2
        · subst hx1
          unfold sampleOne at hs
          cases hreg : reg m.call with
          | none => rw [hreg] at hs; cases hs
          | some f =>
            rw [hreg] at hs
            cases hs
            exact ⟨rfl, ⟨m, List.mem_cons_self m rest, rfl⟩, k, rfl⟩
        · rcases ih (k + 1) more hr x hx2 with ⟨h1, ⟨m2, hm2, h2⟩, h3⟩
          exact ⟨h1, ⟨m2, List.mem_cons_of_mem m hm2, h2⟩, h3⟩

theorem collectDevices_mem {db : DB} {reg : String → Option SampleFun}
    {now rng : Nat → Nat} :
    ∀ (ds : List Device) (k : Nat) (out : List Measure),
      collectDevices db reg now rng ds k = .ok out →
      ∀ x ∈ out, ∃ d ∈ ds, d.is_active = true ∧ x.device_id = d.id ∧
        ∃ j, x.timestamp = now j := by
  intro ds
  induction ds with
  | nil =>
    intro k out h x hx
    simp only [collectDevices] at h
    cases h
    simp at hx
  | cons d1 rest ih =>
    intro k out h x hx
    simp only [collectDevices] at h
    by_cases ha : d1.is_active
    · rw [if_pos ha] at h
      cases hdt : db.getDeviceType d1.device_type_id with
      | none =>
        simp only [hdt] at h
        exact Except.noConfusion h
      | some dt =>
        simp only [hdt] at h
        by_cases he : (db.typeMetrics dt).isEmpty
        · rw [if_pos he] at h
          rcases ih k out h x hx with ⟨d2, hd2, hrest⟩
          exact ⟨d2, List.mem_cons_of_mem d1 hd2, hrest⟩
        · rw [if_neg he] at h
          cases hsl : sampleMetricList reg now rng d1 (db.typeMetrics dt) k with
          | error e =>
            simp only [hsl] at h
            exact Except.noConfusion h
          | ok xs =>
            simp only [hsl] at h
            cases hcr : collectDevices db reg now rng rest (k + (db.typeMetrics dt).length) with
            | error e =>
              simp only [hcr] at h
              exact Except.noConfusion h
            | ok ys =>
              simp only [hcr] at h
              cases h
              rcases List.mem_append.1 hx with hx1 | hx2
              · rcases sampleMetricList_mem (db.typeMetrics dt) k xs hsl x hx1 with
                  ⟨h1, _, h3⟩
                exact ⟨d1, List.mem_cons_self d1 rest, ha, h1, h3⟩
              · rcases ih (k + (db.typeMetrics dt).length) ys hcr x hx2 with ⟨d2, hd2, hrest⟩
                exact ⟨d2, List.mem_cons_of_mem d1 hd2, hrest⟩
    · rw [if_neg ha] at h
      rcases ih k out h x hx with ⟨d2, hd2, hrest⟩
      exact ⟨d2, List.mem_cons_of_mem d1 hd2, hrest⟩

/-- C1: a successful collector run only appends measurements, every new
measurement belongs to a device that is active at the start of the run, and
(device ids being unique) no device with `is_active = false` ever gains a
measurement; existing measurements are untouched. -/
theorem collector_only_active (db : DB) (reg : String → Option SampleFun)
    (now rng : Nat → Nat) (db2 : DB)
    (hnd : (db.devices.map (fun d => d.id)).Nodup)
    (hok : measure_devices db reg now rng = .ok db2) :
    ∃ new, db2.measures = db.measures ++ new ∧
      ∀ x ∈ new, (∃ d ∈ db.devices, x.device_id = d.id ∧ d.is_active = true) ∧
        ∀ d ∈ db.devices, d.id = x.device_id → d.is_active = true := by
  unfold measure_devices at hok
  cases h : collectDevices db reg now rng (db.devices.filter (fun d => d.is_active)) 0 with
  | error e => rw [h] at hok; cases hok
  | ok new =>
    rw [h] at hok
    cases hok
    refine ⟨new, rfl, ?_⟩
    intro x hx
    rcases collectDevices_mem (db.devices.filter (fun d => d.is_active)) 0 new h x hx with
      ⟨d, hdmem, hact, hid, _⟩
    have hdmem2 : d ∈ db.devices := List.mem_of_mem_filter hdmem
    refine ⟨⟨d, hdmem2, hid, hact⟩, ?_⟩
    intro d2 hd2 hid2
    have : d2 = d := by
      apply List.inj_on_of_nodup_map hnd hd2 hdmem2
      rw [hid2, hid]
    rw [this]
    exact hact

theorem collector_only_active_witness :
    (dbA.devices.map (fun d => d.id)).Nodup ∧
    measure_devices dbA globalsRegistry wClock wRng =
      .ok { dbA with
        measures := [{ device_id := 1, metric_id := 1, value := (8 : Rat), timestamp := 100 }] } ∧
    ∃ new,
      ({ dbA with
        measures := [{ device_id := 1, metric_id := 1, value := (8 : Rat), timestamp := 100 }] } : DB).measures
        = dbA.measures ++ new ∧
      ∀ x ∈ new, (∃ d ∈ dbA.devices, x.device_id = d.id ∧ d.is_active = true) ∧
        ∀ d ∈ dbA.devices, d.id = x.device_id → d.is_active = true := by
  refine ⟨by decide, by rfl, ?_⟩
  exact collector_only_active dbA globalsRegistry wClock wRng _ (by decide) (by rfl)

theorem sampleMetricList_ok_of_some (reg : String → Option SampleFun)
    (now rng : Nat → Nat) (d : Device) :
    ∀ (ms : List Metric) (k : Nat), (∀ m ∈ ms, (reg m.call).isSome) →
      ∃ xs, sampleMetricList reg now rng d ms k = .ok xs := by
  intro ms
  induction ms with
  | nil =>
    intro k _
    exact ⟨[], rfl⟩
  | cons m rest ih =>
    intro k h
    have h1 : (reg m.call).isSome := h m (List.mem_cons_self m rest)
    cases hreg : reg m.call with
    | none => rw [hreg] at h1; simp at h1
    | some f =>
      rcases ih (k + 1) (fun m2 hm2 => h m2 (List.mem_cons_of_mem m hm2)) with ⟨xs, hxs⟩
      refine ⟨Measure.mk d.id m.id (f m d (rng k)) (now k) :: xs, ?_⟩
      simp only [sampleMetricList, sampleOne, hreg, hxs]

theorem sampleMetricList_error_of_bad (reg : String → Option SampleFun)
    (now rng : Nat → Nat) (d : Device) :
    ∀ (ms : List Metric) (k : Nat), (∃ m ∈ ms, reg m.call = none) →
      ∃ m ∈ ms, reg m.call = none ∧
        sampleMetricList reg now rng d ms k =
          .error ("Function " ++ m.call ++ " not found or not callable") := by
  intro ms
  induction ms with
  | nil =>
    intro k h
    rcases h with ⟨m, hm, _⟩
    exact absurd hm (List.not_mem_nil m)
  | cons m1 rest ih =>
    intro k h
    cases hreg : reg m1.call with
    | none =>
      refine ⟨m1, List.mem_cons_self m1 rest, hreg, ?_⟩
      simp only [sampleMetricList, sampleOne, hreg]
    | some f =>
      have hrest : ∃ m ∈ rest, reg m.call = none := by
        rcases h with ⟨m, hm, hnone⟩
        rcases List.mem_cons.1 hm with rfl | hm2
        · rw [hreg] at hnone; exact Option.noConfusion hnone
        · exact ⟨m, hm2, hnone⟩
      rcases ih (k + 1) hrest with ⟨m, hm, hnone, herr⟩
      refine ⟨m, List.mem_cons_of_mem m1 hm, hnone, ?_⟩
      simp only [sampleMetricList, sampleOne, hreg, herr]

theorem collectDevices_error_of_bad (db : DB) (reg : String → Option SampleFun)
    (now rng : Nat → Nat) :
    ∀ (ds : List Device) (k : Nat),
      (∀ d ∈ ds, d.is_active = true → (db.getDeviceType d.device_type_id).isSome) →
      (∃ d ∈ ds, d.is_active = true ∧ ∃ dt, db.getDeviceType d.device_type_id = some dt ∧
        ∃ m ∈ db.typeMetrics dt, reg m.call = none) →
      ∃ m : Metric,
        (∃ d ∈ ds, d.is_active = true ∧ ∃ dt, db.getDeviceType d.device_type_id = some dt ∧
          m ∈ db.typeMetrics dt) ∧
        reg m.call = none ∧
        collectDevices db reg now rng ds k =
          .error ("Function " ++ m.call ++ " not found or not callable") := by
  intro ds
  induction ds with
  | nil =>
    intro k _ h
    rcases h with ⟨d, hd, _⟩
    exact absurd hd (List.not_mem_nil d)
  | cons d1 rest ih =>
    intro k hfk hbad
    have hfk2 : ∀ d ∈ rest, d.is_active = true → (db.getDeviceType d.device_type_id).isSome :=
      fun d hd => hfk d (List.mem_cons_of_mem d1 hd)
    by_cases ha : d1.is_active = true
    · have hsome := hfk d1 (List.mem_cons_self d1 rest) ha
      cases hdt1 : db.getDeviceType d1.device_type_id with
      | none => rw [hdt1] at hsome; simp at hsome
      | some dt1 =>
        by_cases hbad1 : ∃ m ∈ db.typeMetrics dt1, reg m.call = none
        · rcases sampleMetricList_error_of_bad reg now rng d1 (db.typeMetrics dt1) k hbad1 with
            ⟨m, hm, hnone, herr⟩
          have hne : (db.typeMetrics dt1).isEmpty = false :=
            List.isEmpty_eq_false.2 (List.ne_nil_of_mem hm)
          refine ⟨m, ⟨d1, List.mem_cons_self d1 rest, ha, dt1, hdt1, hm⟩, hnone, ?_⟩
          rw [collectDevices, if_pos ha]
          simp only [hdt1, hne, Bool.false_eq_true, if_false, herr]
        · have hbadrest : ∃ d ∈ rest, d.is_active = true ∧
              ∃ dt, db.getDeviceType d.device_type_id = some dt ∧
                ∃ m ∈ db.typeMetrics dt, reg m.call = none := by
            rcases hbad with ⟨d, hd, hact, dt, hdt, hmbad⟩
            rcases List.mem_cons.1 hd with rfl | hd2
            · rw [hdt1] at hdt
              injection hdt with hdteq
              subst hdteq
              exact absurd hmbad hbad1
            · exact ⟨d, hd2, hact, dt, hdt, hmbad⟩
          cases hemp : (db.typeMetrics dt1).isEmpty with
          | true =>
            rcases ih k hfk2 hbadrest with ⟨m, ⟨d, hd, hw⟩, hnone, herr⟩
            refine ⟨m, ⟨d, List.mem_cons_of_mem d1 hd, hw⟩, hnone, ?_⟩
            rw [collectDevices, if_pos ha]
            simp only [hdt1, hemp, if_true, herr]
          | false =>
            have hall : ∀ m ∈ db.typeMetrics dt1, (reg m.call).isSome := by
              intro m hm
              cases hc : reg m.call with
              | none => exact absurd ⟨m, hm, hc⟩ hbad1
              | some f => rfl
            rcases sampleMetricList_ok_of_some reg now rng d1 (db.typeMetrics dt1) k hall with
              ⟨xs, hxs⟩
            rcases ih (k + (db.typeMetrics dt1).length) hfk2 hbadrest with
              ⟨m, ⟨d, hd, hw⟩, hnone, herr⟩
            refine ⟨m, ⟨d, List.mem_cons_of_mem d1 hd, hw⟩, hnone, ?_⟩
            rw [collectDevices, if_pos ha]
            simp only [hdt1, hemp, Bool.false_eq_true, if_false, hxs, herr]
    · have hbadrest : ∃ d ∈ rest, d.is_active = true ∧
          ∃ dt, db.getDeviceType d.device_type_id = some dt ∧
            ∃ m ∈ db.typeMetrics dt, reg m.call = none := by
        rcases hbad with ⟨d, hd, hact, hw⟩
        rcases List.mem_cons.1 hd with rfl | hd2
        · exact absurd hact ha
        · exact ⟨d, hd2, hact, hw⟩
      rcases ih k hfk2 hbadrest with ⟨m, ⟨d, hd, hw⟩, hnone, herr⟩
      refine ⟨m, ⟨d, List.mem_cons_of_mem d1 hd, hw⟩, hnone, ?_⟩
      rw [collectDevices, if_neg ha]
      exact herr

/-- C5: when some active device's catalog lists a metric whose `call`
identifier does not resolve in the registry, the collector run raises a
`ValueError` whose message names an unresolved identifier, and commits
nothing: no measurement at all is persisted by the failed run. -/
theorem collector_unknown_call (db : DB) (reg : String → Option SampleFun)
    (now rng : Nat → Nat)
    (hfk : ∀ d ∈ db.devices, d.is_active = true →
      (db.getDeviceType d.device_type_id).isSome)
    (hbad : ∃ d ∈ db.devices, d.is_active = true ∧
      ∃ dt, db.getDeviceType d.device_type_id = some dt ∧
        ∃ m ∈ db.typeMetrics dt, reg m.call = none) :
    ∃ m : Metric,
      (∃ d ∈ db.devices, d.is_active = true ∧
        ∃ dt, db.getDeviceType d.device_type_id = some dt ∧ m ∈ db.typeMetrics dt) ∧
      reg m.call = none ∧
      measure_devices db reg now rng =
        .error ("Function " ++ m.call ++ " not found or not callable") ∧
      runCollector db reg now rng = db := by
  have hfkf : ∀ d ∈ db.devices.filter (fun d => d.is_active), d.is_active = true →
      (db.getDeviceType d.device_type_id).isSome :=
    fun d hd => hfk d (List.mem_of_mem_filter hd)
  have hbadf : ∃ d ∈ db.devices.filter (fun d => d.is_active), d.is_active = true ∧
      ∃ dt, db.getDeviceType d.device_type_id = some dt ∧
        ∃ m ∈ db.typeMetrics dt, reg m.call = none := by
    rcases hbad with ⟨d, hd, hact, hw⟩
    exact ⟨d, List.mem_filter.2 ⟨hd, hact⟩, hact, hw⟩
  rcases collectDevices_error_of_bad db reg now rng
      (db.devices.filter (fun d => d.is_active)) 0 hfkf hbadf
    with ⟨m, ⟨d, hd, hact, hw⟩, hnone, herr⟩
  have herr2 : measure_devices db reg now rng =
      .error ("Function " ++ m.call ++ " not found or not callable") := by
    simp only [measure_devices, herr]
  exact ⟨m, ⟨d, List.mem_of_mem_filter hd, hact, hw⟩, hnone, herr2,
    runCollector_of_error herr2⟩

theorem collector_unknown_call_witness :
    (∀ d ∈ dbBad.devices, d.is_active = true →
      (dbBad.getDeviceType d.device_type_id).isSome) ∧
    (∃ d ∈ dbBad.devices, d.is_active = true ∧
      ∃ dt, dbBad.getDeviceType d.device_type_id = some dt ∧
        ∃ m ∈ dbBad.typeMetrics dt, globalsRegistry m.call = none) ∧
    ∃ m : Metric,
      (∃ d ∈ dbBad.devices, d.is_active = true ∧
        ∃ dt, dbBad.getDeviceType d.device_type_id = some dt ∧ m ∈ dbBad.typeMetrics dt) ∧
      globalsRegistry m.call = none ∧
      measure_devices dbBad globalsRegistry wClock wRng =
        .error ("Function " ++ m.call ++ " not found or not callable") ∧
      runCollector dbBad globalsRegistry wClock wRng = dbBad := by
  have hfk : ∀ d ∈ dbBad.devices, d.is_active = true →
      (dbBad.getDeviceType d.device_type_id).isSome := by decide
  have hbad : ∃ d ∈ dbBad.devices, d.is_active = true ∧
      ∃ dt, dbBad.getDeviceType d.device_type_id = some dt ∧
        ∃ m ∈ dbBad.typeMetrics dt, globalsRegistry m.call = none := by
    refine ⟨{ id := 1, name := "S1", site_id := 1, device_type_id := 1, is_active := true },
      by decide, rfl, { id := 1, name := "Sensor" }, by rfl,
      { id := 1, name := "temp", unit := "C", call := "nope" }, by decide, rfl⟩
  exact ⟨hfk, hbad, collector_unknown_call dbBad globalsRegistry wClock wRng hfk hbad⟩

theorem tsDescLE_trans : ∀ a b c, tsDescLE a b → tsDescLE b c → tsDescLE a c := by
  intro a b c hab hbc
  simp only [tsDescLE, decide_eq_true_eq] at *
  omega

theorem tsDescLE_total : ∀ a b, tsDescLE a b || tsDescLE b a := by
  intro a b
  simp only [tsDescLE, Bool.or_eq_true, decide_eq_true_eq]
  omega

/-- C3: when device and metric exist, the history view returns the complete
multiset of the pair's measurements (a permutation of the filtered log),
ordered by non-increasing timestamp. -/
theorem measure_history_complete_sorted (db : DB) (device_id metric_id : Nat)
    (d : Device) (m : Metric)
    (hd : db.getDevice device_id = some d) (hm : db.getMetric metric_id = some m) :
    ∃ hist, measure_history db device_id metric_id = some hist ∧
      hist.Perm (db.measures.filter
        (fun x => x.device_id == device_id && x.metric_id == metric_id)) ∧
      hist.Pairwise (fun a b => b.timestamp ≤ a.timestamp) := by
  refine ⟨(db.measures.filter
      (fun x => x.device_id == device_id && x.metric_id == metric_id)).mergeSort tsDescLE,
    ?_, ?_, ?_⟩
  · simp only [measure_history, hd, hm]
  · exact List.mergeSort_perm _ _
  · have hp := List.sorted_mergeSort tsDescLE_trans tsDescLE_total
      (db.measures.filter
        (fun x => x.device_id == device_id && x.metric_id == metric_id))
    refine hp.imp ?_
    intro a b h
    simpa [tsDescLE] using h

theorem measure_history_complete_sorted_witness :
    dbSnap.getDevice 1 =
      some { id := 1, name := "S1", site_id := 1, device_type_id := 1, is_active := true } ∧
    dbSnap.getMetric 1 = some { id := 1, name := "temp", unit := "C", call := "mock" } ∧
    ∃ hist, measure_history dbSnap 1 1 = some hist ∧
      hist.Perm (dbSnap.measures.filter
        (fun x => x.device_id == 1 && x.metric_id == 1)) ∧
      hist.Pairwise (fun a b => b.timestamp ≤ a.timestamp) := by
  refine ⟨by rfl, by rfl, ?_⟩
  exact measure_history_complete_sorted dbSnap 1 1
    { id := 1, name := "S1", site_id := 1, device_type_id := 1, is_active := true }
    { id := 1, name := "temp", unit := "C", call := "mock" } (by rfl) (by rfl)

theorem snapshotLE_trans : ∀ a b c, snapshotLE a b → snapshotLE b c → snapshotLE a c := by
  intro a b c hab hbc
  simp only [snapshotLE, Bool.or_eq_true, Bool.and_eq_true, decide_eq_true_eq,
    beq_iff_eq] at *
  omega

theorem snapshotLE_total : ∀ a b, snapshotLE a b || snapshotLE b a := by
  intro a b
  simp only [snapshotLE, Bool.or_eq_true, Bool.and_eq_true, decide_eq_true_eq,
    beq_iff_eq]
  omega

theorem firstPerMetric_subset :
    ∀ (l : List Measure) (seen : List Nat), ∀ x ∈ firstPerMetric l seen, x ∈ l := by
  intro l
  induction l with
  | nil =>
    intro seen x hx
    simp [firstPerMetric] at hx
  | cons m rest ih =>
    intro seen x hx
    simp only [firstPerMetric] at hx
    by_cases hs : m.metric_id ∈ seen
    · rw [if_pos hs] at hx
      exact List.mem_cons_of_mem m (ih seen x hx)
    · rw [if_neg hs] at hx
      rcases List.mem_cons.1 hx with rfl | hx2
      · exact List.mem_cons_self x rest
      · exact List.mem_cons_of_mem m (ih (m.metric_id :: seen) x hx2)

theorem firstPerMetric_not_seen :
    ∀ (l : List Measure) (seen : List Nat), ∀ x ∈ firstPerMetric l seen,
      x.metric_id ∉ seen := by
  intro l
  induction l with
  | nil =>
    intro seen x hx
    simp [firstPerMetric] at hx
  | cons m rest ih =>
    intro seen x hx
    simp only [firstPerMetric] at hx
    by_cases hs : m.metric_id ∈ seen
    · rw [if_pos hs] at hx
      exact ih seen x hx
    · rw [if_neg hs] at hx
      rcases List.mem_cons.1 hx with rfl | hx2
      · exact hs
      · intro hmem
        exact ih (m.metric_id :: seen) x hx2 (List.mem_cons_of_mem _ hmem)

theorem firstPerMetric_nodup :
    ∀ (l : List Measure) (seen : List Nat),
      ((firstPerMetric l seen).map (fun x => x.metric_id)).Nodup := by
  intro l
  induction l with
  | nil =>
    intro seen
    simp [firstPerMetric]
  | cons m rest ih =>
    intro seen
    simp only [firstPerMetric]
    by_cases hs : m.metric_id ∈ seen
    · rw [if_pos hs]
      exact ih seen
    · rw [if_neg hs]
      simp only [List.map_cons, List.nodup_cons]
      refine ⟨?_, ih (m.metric_id :: seen)⟩
      intro hmem
      rcases List.mem_map.1 hmem with ⟨x, hx, hxid⟩
      exact firstPerMetric_not_seen rest (m.metric_id :: seen) x hx
        (hxid ▸ List.mem_cons_self _ _)

theorem firstPerMetric_mem_ids :
    ∀ (l : List Measure) (seen : List Nat) (mid : Nat), mid ∉ seen →
      ((∃ x ∈ l, x.metric_id = mid) ↔ ∃ x ∈ firstPerMetric l seen, x.metric_id = mid) := by
  intro l
  induction l with
  | nil =>
    intro seen mid _
    simp [firstPerMetric]
  | cons m rest ih =>
    intro seen mid hns
    constructor
    · rintro ⟨x, hx, hxid⟩
      simp only [firstPerMetric]
      by_cases hs : m.metric_id ∈ seen
      · rw [if_pos hs]
        rcases List.mem_cons.1 hx with rfl | hx2
        · exact absurd (hxid ▸ hs) hns
        · exact (ih seen mid hns).1 ⟨x, hx2, hxid⟩
      · rw [if_neg hs]
        by_cases heq : mid = m.metric_id
        · exact ⟨m, List.mem_cons_self _ _, heq.symm⟩
        · rcases List.mem_cons.1 hx with rfl | hx2
          · exact absurd hxid.symm heq
          · have hns2 : mid ∉ m.metric_id :: seen := by
              intro hc
              rcases List.mem_cons.1 hc with hc1 | hc2
              · exact heq hc1
              · exact hns hc2
            rcases (ih (m.metric_id :: seen) mid hns2).1 ⟨x, hx2, hxid⟩ with ⟨y, hy, hyid⟩
            exact ⟨y, List.mem_cons_of_mem _ hy, hyid⟩
    · rintro ⟨x, hx, hxid⟩
      exact ⟨x, firstPerMetric_subset _ seen x hx, hxid⟩

theorem firstPerMetric_max :
    ∀ (l : List Measure) (seen : List Nat),
      l.Pairwise (fun a b => snapshotLE a b = true) →
      ∀ x ∈ firstPerMetric l seen, ∀ y ∈ l, y.metric_id = x.metric_id →
        y.timestamp ≤ x.timestamp := by
  intro l
  induction l with
  | nil =>
    intro seen _ x hx
    simp [firstPerMetric] at hx
  | cons m rest ih =>
    intro seen hp x hx y hy hyid
    rcases List.pairwise_cons.1 hp with ⟨hmrest, hprest⟩
    simp only [firstPerMetric] at hx
    by_cases hs : m.metric_id ∈ seen
    · rw [if_pos hs] at hx
      rcases List.mem_cons.1 hy with rfl | hy2
      · exact absurd (hyid ▸ hs) (firstPerMetric_not_seen rest seen x hx)
      · exact ih seen hprest x hx y hy2 hyid
    · rw [if_neg hs] at hx
      rcases List.mem_cons.1 hx with rfl | hx2
      · rcases List.mem_cons.1 hy with rfl | hy2
        · exact Nat.le_refl _
        · have hle := hmrest y hy2
          simp only [snapshotLE, Bool.or_eq_true, Bool.and_eq_true, decide_eq_true_eq,
            beq_iff_eq] at hle
          omega
      · rcases List.mem_cons.1 hy with rfl | hy2
        · have : y.metric_id ≠ x.metric_id := by
            intro hc
            exact firstPerMetric_not_seen rest (y.metric_id :: seen) x hx2
              (hc ▸ List.mem_cons_self _ _)
          exact absurd hyid this
        · exact ih (m.metric_id :: seen) hprest x hx2 y hy2 hyid

/-- C2: when the device exists, its snapshot view has exactly one entry per
metric that has at least one measurement for the device, each entry being a
measurement of the device with maximal timestamp among that metric's
measurements; metrics without measurements contribute nothing. -/
theorem device_snapshot_latest (db : DB) (i : Nat) (d0 : Device)
    (hdev : db.getDevice i = some d0) :
    ∃ snap, device db i = some snap ∧ SnapshotSpec db i snap := by
  refine ⟨firstPerMetric
      ((db.measures.filter (fun m => m.device_id == i)).mergeSort snapshotLE) [],
    by simp only [device, hdev], ?_⟩
  unfold SnapshotSpec
  have hperm := List.mergeSort_perm (db.measures.filter (fun x => x.device_id == i)) snapshotLE
  have hsorted := List.sorted_mergeSort snapshotLE_trans snapshotLE_total
    (db.measures.filter (fun x => x.device_id == i))
  refine ⟨firstPerMetric_nodup _ [], ?_, ?_⟩
  · intro mid
    rw [← firstPerMetric_mem_ids _ [] mid (List.not_mem_nil mid)]
    constructor
    · rintro ⟨x, hx, hxid⟩
      have hx2 := hperm.mem_iff.1 hx
      rcases List.mem_filter.1 hx2 with ⟨hx3, hx4⟩
      exact ⟨x, hx3, by simpa using hx4, hxid⟩
    · rintro ⟨mm, hmm, hdev2, hmid⟩
      refine ⟨mm, hperm.mem_iff.2 (List.mem_filter.2 ⟨hmm, by simpa using hdev2⟩), hmid⟩
  · intro x hx
    have hx1 := firstPerMetric_subset _ [] x hx
    have hx2 := hperm.mem_iff.1 hx1
    rcases List.mem_filter.1 hx2 with ⟨hx3, hx4⟩
    refine ⟨hx3, by simpa using hx4, ?_⟩
    intro mm hmm hdev2 hmid
    have hmm2 : mm ∈ (db.measures.filter (fun x => x.device_id == i)).mergeSort snapshotLE :=
      hperm.mem_iff.2 (List.mem_filter.2 ⟨hmm, by simpa using hdev2⟩)
    exact firstPerMetric_max _ [] hsorted x hx mm hmm2 hmid

theorem device_snapshot_latest_witness :
    dbSnap.getDevice 1 =
      some { id := 1, name := "S1", site_id := 1, device_type_id := 1, is_active := true } ∧
    ∃ snap, device dbSnap 1 = some snap ∧ SnapshotSpec dbSnap 1 snap := by
  refine ⟨by rfl, ?_⟩
  exact device_snapshot_latest dbSnap 1
    { id := 1, name := "S1", site_id := 1, device_type_id := 1, is_active := true } (by rfl)

theorem find_self_of_nodup {d : Device} :
    ∀ (l : List Device), (l.map (fun x => x.id)).Nodup → d ∈ l →
      l.find? (fun x => x.id == d.id) = some d := by
  intro l
  induction l with
  | nil =>
    intro _ hd
    exact absurd hd (List.not_mem_nil d)
  | cons a rest ih =>
    intro hnd hd
    rw [List.map_cons] at hnd
    rcases List.nodup_cons.1 hnd with ⟨hna, hnd2⟩
    rcases List.mem_cons.1 hd with rfl | hd2
    · rw [List.find?_cons_of_pos]
      simp
    · have hne : a.id ≠ d.id := by
        intro hc
        exact hna (hc ▸ List.mem_map_of_mem _ hd2)
      rw [List.find?_cons_of_neg]
      · exact ih hnd2 hd2
      · simp [hne]

theorem typeMetrics_getMetric {db : DB} {dt : DeviceType} {m : Metric}
    (h : m ∈ db.typeMetrics dt) : db.getMetric m.id = some m := by
  unfold DB.typeMetrics at h
  rcases List.mem_filterMap.1 h with ⟨l, _, hget⟩
  have hid : m.id = l.2 := by
    have := List.find?_some hget
    simpa using this
  rw [DB.getMetric, hid]
  exact hget

theorem sampleMetricList_shape (reg : String → Option SampleFun)
    (now rng : Nat → Nat) (d : Device) :
    ∀ (ms : List Metric) (k : Nat) (xs : List Measure),
      sampleMetricList reg now rng d ms k = .ok xs →
      xs.map (fun x => x.metric_id) = ms.map (fun m => m.id) := by
  intro ms
  induction ms with
  | nil =>
    intro k xs h
    simp only [sampleMetricList] at h
    cases h
    rfl
  | cons m rest ih =>
    intro k xs h
    simp only [sampleMetricList] at h
    cases hs : sampleOne reg d m (now k) (rng k) with
    | error e => rw [hs] at h; exact Except.noConfusion h
    | ok meas =>
      rw [hs] at h
      cases hr : sampleMetricList reg now rng d rest (k + 1) with
      | error e => rw [hr] at h; exact Except.noConfusion h
      | ok more =>
        rw [hr] at h
        cases h
        have hmid : meas.metric_id = m.id := by
          unfold sampleOne at hs
          cases hreg : reg m.call with
          | none => rw [hreg] at hs; exact Except.noConfusion hs
          | some f =>
            rw [hreg] at hs
            cases hs
            rfl
        simp only [List.map_cons, hmid, ih (k + 1) more hr]

theorem countP_pair_of_shape (did mid : Nat) :
    ∀ (xs : List Measure), (∀ x ∈ xs, x.device_id = did) →
      xs.countP (fun x => x.device_id == did && x.metric_id == mid)
        = (xs.map (fun x => x.metric_id)).count mid := by
  intro xs
  induction xs with
  | nil =>
    intro _
    rfl
  | cons x rest ih =>
    intro h
    have hx : x.device_id = did := h x (List.mem_cons_self x rest)
    have hrest := ih (fun y hy => h y (List.mem_cons_of_mem x hy))
    simp only [List.countP_cons, List.map_cons, List.count_cons, hrest, hx]
    simp

theorem collectDevices_countP (db : DB) (reg : String → Option SampleFun)
    (now rng : Nat → Nat) (d : Device) (dt : DeviceType) (m : Metric)
    (hdt : db.getDeviceType d.device_type_id = some dt)
    (hm : m ∈ db.typeMetrics dt)
    (hmnd : ((db.typeMetrics dt).map (fun x => x.id)).Nodup) :
    ∀ (ds : List Device) (k : Nat) (out : List Measure),
      (ds.map (fun x => x.id)).Nodup → d ∈ ds → d.is_active = true →
      collectDevices db reg now rng ds k = .ok out →
      out.countP (fun x => x.device_id == d.id && x.metric_id == m.id) = 1 := by
  intro ds
  induction ds with
  | nil =>
    intro k out _ hd
    exact absurd hd (List.not_mem_nil d)
  | cons d1 rest ih =>
    intro k out hnd hd hact h
    rw [List.map_cons] at hnd
    rcases List.nodup_cons.1 hnd with ⟨hna, hnd2⟩
    simp only [collectDevices] at h
    by_cases ha : d1.is_active = true
    · rw [if_pos ha] at h
      cases hdt1 : db.getDeviceType d1.device_type_id with
      | none =>
        simp only [hdt1] at h
        exact Except.noConfusion h
      | some dt1 =>
        simp only [hdt1] at h
        rcases List.mem_cons.1 hd with rfl | hdrest
        · rw [hdt1] at hdt
          injection hdt with hdteq
          subst hdteq
          have hne : (db.typeMetrics dt1).isEmpty = false :=
            List.isEmpty_eq_false.2 (List.ne_nil_of_mem hm)
          simp only [hne, Bool.false_eq_true, if_false] at h
          cases hsl : sampleMetricList reg now rng d (db.typeMetrics dt1) k with
          | error e =>
            simp only [hsl] at h
            exact Except.noConfusion h
          | ok xs =>
            simp only [hsl] at h
            cases hcr : collectDevices db reg now rng rest (k + (db.typeMetrics dt1).length) with
            | error e =>
              simp only [hcr] at h
              exact Except.noConfusion h
            | ok ys =>
              simp only [hcr] at h
              cases h
              rw [List.countP_append]
              have hdev : ∀ x ∈ xs, x.device_id = d.id :=
                fun x hx => (sampleMetricList_mem _ _ xs hsl x hx).1
              have h1 : xs.countP (fun x => x.device_id == d.id && x.metric_id == m.id)
                  = ((db.typeMetrics dt1).map (fun x => x.id)).count m.id := by
                rw [countP_pair_of_shape d.id m.id xs hdev,
                  sampleMetricList_shape reg now rng d (db.typeMetrics dt1) k xs hsl]
              have h2 : ((db.typeMetrics dt1).map (fun x => x.id)).count m.id = 1 :=
                List.count_eq_one_of_mem hmnd (List.mem_map_of_mem _ hm)
              have h3 : ys.countP (fun x => x.device_id == d.id && x.metric_id == m.id) = 0 := by
                rw [List.countP_eq_zero]
                intro y hy hpy
                rcases collectDevices_mem rest _ ys hcr y hy with ⟨d2, hd2, _, hyid, _⟩
                simp only [Bool.and_eq_true, beq_iff_eq] at hpy
                apply hna
                rw [← hpy.1, hyid]
                exact List.mem_map_of_mem _ hd2
              rw [h1, h2, h3]
        · have hd1ne : d1.id ≠ d.id := by
            intro hc
            exact hna (hc ▸ List.mem_map_of_mem _ hdrest)
          cases hemp : (db.typeMetrics dt1).isEmpty with
          | true =>
            simp only [hemp, if_true] at h
            exact ih k out hnd2 hdrest hact h
          | false =>
            simp only [hemp, Bool.false_eq_true, if_false] at h
            cases hsl : sampleMetricList reg now rng d1 (db.typeMetrics dt1) k with
            | error e =>
              simp only [hsl] at h
              exact Except.noConfusion h
            | ok xs =>
              simp only [hsl] at h
              cases hcr : collectDevices db reg now rng rest
                  (k + (db.typeMetrics dt1).length) with
              | error e =>
                simp only [hcr] at h
                exact Except.noConfusion h
              | ok ys =>
                simp only [hcr] at h
                cases h
                rw [List.countP_append]
                have h1 : xs.countP (fun x => x.device_id == d.id && x.metric_id == m.id)
                    = 0 := by
                  rw [List.countP_eq_zero]
                  intro y hy hpy
                  have hyd : y.device_id = d1.id :=
                    (sampleMetricList_mem _ _ xs hsl y hy).1
                  simp only [Bool.and_eq_true, beq_iff_eq] at hpy
                  exact hd1ne (hyd ▸ hpy.1)
                have h2 := ih _ ys hnd2 hdrest hact hcr
                rw [h1, h2]
    · rw [if_neg ha] at h
      rcases List.mem_cons.1 hd with rfl | hdrest
      · exact absurd hact ha
      · exact ih k out hnd2 hdrest hact h

theorem mergeSort_head_of_strict_max (l : List Measure) (x : Measure)
    (hx : x ∈ l) (hmax : ∀ y ∈ l, y ≠ x → y.timestamp < x.timestamp) :
    ∃ rest, l.mergeSort tsDescLE = x :: rest := by
  have hsorted := List.sorted_mergeSort tsDescLE_trans tsDescLE_total l
  cases hms : l.mergeSort tsDescLE with
  | nil =>
    have : x ∈ l.mergeSort tsDescLE := List.mem_mergeSort.2 hx
    rw [hms] at this
    exact absurd this (List.not_mem_nil x)
  | cons h t =>
    by_cases heq : h = x
    · exact ⟨t, by rw [heq]⟩
    · have hxmem : x ∈ h :: t := by
        rw [← hms]
        exact List.mem_mergeSort.2 hx
      rcases List.mem_cons.1 hxmem with rfl | hxt
      · exact absurd rfl heq
      · rw [hms] at hsorted
        rcases List.pairwise_cons.1 hsorted with ⟨hht, _⟩
        have hle := hht x hxt
        have hhl : h ∈ l := by
          have : h ∈ l.mergeSort tsDescLE := by
            rw [hms]
            exact List.mem_cons_self h t
          exact List.mem_mergeSort.1 this
        have hlt := hmax h hhl heq
        simp only [tsDescLE, decide_eq_true_eq] at hle
        omega

/-- C7: if a successful collector run samples an active device's associated
metric (clock strictly ahead of all stored timestamps), the inserted
measurement is the first element of the history view queried on the
resulting state. -/
theorem collector_history_roundtrip (db : DB) (reg : String → Option SampleFun)
    (now rng : Nat → Nat) (db2 : DB) (d : Device) (dt : DeviceType) (m : Metric)
    (hnd : (db.devices.map (fun x => x.id)).Nodup)
    (hd : d ∈ db.devices) (hact : d.is_active = true)
    (hdt : db.getDeviceType d.device_type_id = some dt)
    (hm : m ∈ db.typeMetrics dt)
    (hmnd : ((db.typeMetrics dt).map (fun x => x.id)).Nodup)
    (hok : measure_devices db reg now rng = .ok db2)
    (hts : ∀ j, ∀ mm ∈ db.measures, mm.timestamp < now j) :
    ∃ x rest, x ∈ db2.measures ∧ x ∉ db.measures ∧
      x.device_id = d.id ∧ x.metric_id = m.id ∧
      measure_history db2 d.id m.id = some (x :: rest) := by
  unfold measure_devices at hok
  cases hcol : collectDevices db reg now rng (db.devices.filter (fun x => x.is_active)) 0 with
  | error e =>
    simp only [hcol] at hok
    exact Except.noConfusion hok
  | ok new =>
    simp only [hcol] at hok
    cases hok
    have hndf : ((db.devices.filter (fun x => x.is_active)).map (fun x => x.id)).Nodup :=
      List.Nodup.sublist (List.Sublist.map _ (List.filter_sublist _)) hnd
    have hdf : d ∈ db.devices.filter (fun x => x.is_active) :=
      List.mem_filter.2 ⟨hd, hact⟩
    have hcount := collectDevices_countP db reg now rng d dt m hdt hm hmnd
      (db.devices.filter (fun x => x.is_active)) 0 new hndf hdf hact hcol
    have hflen : (new.filter
        (fun mm => mm.device_id == d.id && mm.metric_id == m.id)).length = 1 := by
      rw [← List.countP_eq_length_filter]
      exact hcount
    rcases List.length_eq_one.1 hflen with ⟨x, hxeq⟩
    have hxf : x ∈ new.filter (fun mm => mm.device_id == d.id && mm.metric_id == m.id) := by
      rw [hxeq]
      exact List.mem_cons_self x []
    have hxnew : x ∈ new := List.mem_of_mem_filter hxf
    have hpx := List.of_mem_filter hxf
    simp only [Bool.and_eq_true, beq_iff_eq] at hpx
    rcases collectDevices_mem _ 0 new hcol x hxnew with ⟨d2, hd2m, hd2a, hxdev, j, hxts⟩
    have hxold : x ∉ db.measures := by
      intro hc
      have := hts j x hc
      omega
    have hdev2 : DB.getDevice { db with measures := db.measures ++ new } d.id = some d :=
      find_self_of_nodup db.devices hnd hd
    have hmet2 : DB.getMetric { db with measures := db.measures ++ new } m.id = some m :=
      typeMetrics_getMetric hm
    have hfilter : (db.measures ++ new).filter
        (fun mm => mm.device_id == d.id && mm.metric_id == m.id)
        = db.measures.filter (fun mm => mm.device_id == d.id && mm.metric_id == m.id)
          ++ [x] := by
      rw [List.filter_append, hxeq]
    have hmax : ∀ y ∈ db.measures.filter
          (fun mm => mm.device_id == d.id && mm.metric_id == m.id) ++ [x],
        y ≠ x → y.timestamp < x.timestamp := by
      intro y hy hne
      rcases List.mem_append.1 hy with hy1 | hy2
      · have hyold : y ∈ db.measures := List.mem_of_mem_filter hy1
        have := hts j y hyold
        omega
      · rcases List.mem_cons.1 hy2 with rfl | h2
        · exact absurd rfl hne
        · exact absurd h2 (List.not_mem_nil y)
    have hxin : x ∈ db.measures.filter
        (fun mm => mm.device_id == d.id && mm.metric_id == m.id) ++ [x] :=
      List.mem_append.2 (Or.inr (List.mem_cons_self x []))
    rcases mergeSort_head_of_strict_max _ x hxin hmax with ⟨rest, hsort⟩
    refine ⟨x, rest, ?_, hxold, hpx.1, hpx.2, ?_⟩
    · show x ∈ db.measures ++ new
      exact List.mem_append.2 (Or.inr hxnew)
    · show measure_history { db with measures := db.measures ++ new } d.id m.id
        = some (x :: rest)
      simp only [measure_history, hdev2, hmet2]
      rw [hfilter, hsort]

theorem collector_history_roundtrip_witness :
    (dbOld.devices.map (fun x => x.id)).Nodup ∧
    ({ id := 1, name := "S1", site_id := 1, device_type_id := 1,
       is_active := true } : Device) ∈ dbOld.devices ∧
    ({ id := 1, name := "S1", site_id := 1, device_type_id := 1,
       is_active := true } : Device).is_active = true ∧
    dbOld.getDeviceType 1 = some { id := 1, name := "Sensor" } ∧
    ({ id := 1, name := "temp", unit := "C", call := "mock" } : Metric)
      ∈ dbOld.typeMetrics { id := 1, name := "Sensor" } ∧
    ((dbOld.typeMetrics { id := 1, name := "Sensor" }).map (fun x => x.id)).Nodup ∧
    measure_devices dbOld globalsRegistry wClock wRng = .ok dbOldRun ∧
    (∀ j, ∀ mm ∈ dbOld.measures, mm.timestamp < wClock j) ∧
    ∃ x rest, x ∈ dbOldRun.measures ∧ x ∉ dbOld.measures ∧
      x.device_id = 1 ∧ x.metric_id = 1 ∧
      measure_history dbOldRun 1 1 = some (x :: rest) := by
  have hts : ∀ j, ∀ mm ∈ dbOld.measures, mm.timestamp < wClock j := by
    intro j mm hmm
    have hmm2 : mm = Measure.mk 1 1 (5 : Rat) 50 := by
      simpa [dbOld, dbA] using hmm
    rw [hmm2]
    show 50 < 100 + j
    omega
  refine ⟨by decide, by decide, rfl, by rfl, by decide, by decide, by rfl, hts, ?_⟩
  exact collector_history_roundtrip dbOld globalsRegistry wClock wRng dbOldRun
    { id := 1, name := "S1", site_id := 1, device_type_id := 1, is_active := true }
    { id := 1, name := "Sensor" }
    { id := 1, name := "temp", unit := "C", call := "mock" }
    (by decide) (by decide) rfl (by rfl) (by decide) (by decide) (by rfl) hts
